import Mathlib

/-!
Shallow embedding of `cometkim/yarn-changeset-action` (a GitHub action that
opens/updates a changesets release PR or publishes packages), together with
theorems checking its natural-language specification.

Embedded sources:
  * `src/readChangesetState.ts` — `readChangesetState`
  * `src/index.ts` (entry point) — the top-level gating between the
    version-PR path and the publish path
  * `src/run.ts` — `getVersionPrBody`, `runPublish`, `createRelease`,
    and the commit/push and PR create-or-update tails of `runVersion`

External effects (filesystem reads, shell executions, GitHub API calls)
are modelled by passing their observable results in as parameters and by
returning the requests the code would issue as explicit data.
-/

namespace YarnChangesetAction

/-- A changeset as produced by `@changesets/read`: an id plus the list of
releases it declares (we keep just what the action inspects: `id` and
`releases.length`, the latter via a list of release package names). -/
structure Changeset where
  id : String
  releases : List String
deriving DecidableEq, Repr

/-- A pre-release state as stored by `@changesets/pre` in `.changeset/pre.json`:
its `mode`, the pre tag, and the ids of changesets already consumed. -/
structure PreState where
  mode : String
  tag : String
  changesets : List String
deriving DecidableEq, Repr

/-- Function `readChangesetState` from `src/readChangesetState.ts`, with the on-disk
data (`readPreState cwd` and `readChangesets cwd`) passed as parameters.
Returns the pair `(preState, changesets)` of the `ChangesetState` object. -/
def readChangesetState (preStateOnDisk : Option PreState)
    (changesetsOnDisk : List Changeset) : Option PreState × List Changeset :=
  let isInPreMode : Bool :=
    match preStateOnDisk with
    | some preState => preState.mode == "pre"
    | none => false
  let changesets : List Changeset :=
    match isInPreMode, preStateOnDisk with
    | true, some preState =>
        changesetsOnDisk.filter (fun x => !(preState.changesets.contains x.id))
    | _, _ => changesetsOnDisk
  (if isInPreMode then preStateOnDisk else none, changesets)

/-- The action taken by the entry point in `src/index.ts` after reading the
changeset state, abstracting the side effects of each branch. -/
inductive MainAction where
  /-- The run calls `core.setFailed msg` and returns. -/
  | fail (msg : String)
  /-- The run invokes `runVersion` (the release-PR create/update path). -/
  | version
  /-- changesets exist but all are empty: log and return, no PR. -/
  | skipEmpty
  /-- The run invokes `runPublish`. -/
  | publish
  /-- no changesets and `autoPublish` is off: nothing happens. -/
  | noop
deriving DecidableEq, Repr

/-- The gating logic of the entry point in `src/index.ts`: which of the
action's paths runs, as a function of the environment tokens, the changesets
read from disk, and the `autoPublish` input. -/
def mainDecision (githubToken : Option String) (npmToken : Option String)
    (changesets : List Changeset) (autoPublish : Bool) : MainAction :=
  match githubToken with
  | none => .fail "Please add the GITHUB_TOKEN to the changesets action"
  | some _ =>
    let hasChangesets : Bool := changesets.length != 0
    let hasNonEmptyChangesets : Bool :=
      changesets.any (fun changeset => changeset.releases.length > 0)
    if hasChangesets then
      if hasNonEmptyChangesets then .version else .skipEmpty
    else if autoPublish then
      match npmToken with
      | none => .fail "Please add the NPM_TOKEN to the changesets action"
      | some _ => .publish
    else .noop

/-- A changelog entry as returned by `getChangelogEntry` in `src/utils.ts`
(file absent from the snapshot; only the `content` field is consumed by the
code embedded here). -/
structure ChangelogEntry where
  content : String
deriving DecidableEq, Repr

/-- Type `ChangedPackageInfo` from `src/run.ts`: a changelog entry plus the
package's `private` flag (renamed `isPrivate`, since `private` is a Lean
keyword) and its rendered section header. -/
structure ChangedPackageInfo where
  content : String
  isPrivate : Bool
  header : String
deriving DecidableEq, Repr

/-- Constant `messageHeader` of `getVersionPrBody` in `src/run.ts`. -/
def messageHeader (autoPublish : Bool) (branch : String) : String :=
  "This PR was opened by the [Changesets release](https://github.com/changesets/action) GitHub action. When you're ready to do a release, you can merge this and " ++
  (if autoPublish then
    "the packages will be published to npm automatically"
  else
    "publish to npm yourself or [setup this action to publish automatically](https://github.com/changesets/action#with-publishing)") ++
  ". If you're not ready to do a release yet, that's fine, whenever you add more changesets to " ++
  branch ++ ", this PR will be updated.\n"

/-- Constant `messagePrestate` of `getVersionPrBody` in `src/run.ts`: the pre-mode
warning block when a pre state is active, the empty string otherwise. -/
def messagePrestate (preState : Option PreState) (branch : String) : String :=
  match preState with
  | some _ =>
    "⚠️⚠️⚠️⚠️⚠️⚠️\n\n`" ++ branch ++
    "` is currently in **pre mode** so this branch has prereleases rather than normal releases. If you want to exit prereleases, run `changeset pre exit` on `" ++
    branch ++ "`.\n\n⚠️⚠️⚠️⚠️⚠️⚠️\n"
  | none => ""

/-- Constant `messageReleasesHeading` of `getVersionPrBody` in `src/run.ts`. -/
def messageReleasesHeading : String := "# Releases"

/-- The per-package section of the first-tier PR body:
`info.header + "\n\n" + info.content`. -/
def packageSection (info : ChangedPackageInfo) : String :=
  info.header ++ "\n\n" ++ info.content

/-- The per-package section of the second-tier PR body: the header only,
`info.header + "\n\n"`. -/
def packageHeaderSection (info : ChangedPackageInfo) : String :=
  info.header ++ "\n\n"

/-- The first-tier (full) PR body of `getVersionPrBody`. JS joins the parts
with `"\n"`; string lengths below are counted in code points, which agrees
with the JS UTF-16 count on all texts involved here. -/
def fullMessageTier1 (autoPublish : Bool) (preState : Option PreState)
    (branch : String) (changedPackagesInfo : List ChangedPackageInfo) : String :=
  String.intercalate "\n"
    ([messageHeader autoPublish branch,
      messagePrestate preState branch,
      messageReleasesHeading] ++ changedPackagesInfo.map packageSection)

/-- The second-tier PR body of `getVersionPrBody`: changelog contents omitted,
with an omission notice. -/
def fullMessageTier2 (autoPublish : Bool) (preState : Option PreState)
    (branch : String) (changedPackagesInfo : List ChangedPackageInfo) : String :=
  String.intercalate "\n"
    ([messageHeader autoPublish branch,
      messagePrestate preState branch,
      messageReleasesHeading,
      "\n> The changelog information of each package has been omitted from this message, as the content exceeds the size limit.\n"]
     ++ changedPackagesInfo.map packageHeaderSection)

/-- The third-tier PR body of `getVersionPrBody`: all release information
omitted. -/
def fullMessageTier3 (autoPublish : Bool) (preState : Option PreState)
    (branch : String) : String :=
  String.intercalate "\n"
    [messageHeader autoPublish branch,
     messagePrestate preState branch,
     messageReleasesHeading,
     "\n> All release information have been omitted from this message, as the content exceeds the size limit."]

/-- Function `getVersionPrBody` from `src/run.ts`: builds the full message, then
applies the two size checks in sequence, each replacing the message when the
current one exceeds `prBodyMaxCharacters`. -/
def getVersionPrBody (autoPublish : Bool) (preState : Option PreState)
    (changedPackagesInfo : List ChangedPackageInfo)
    (prBodyMaxCharacters : Nat) (branch : String) : String :=
  let fullMessage := fullMessageTier1 autoPublish preState branch changedPackagesInfo
  let fullMessage :=
    if fullMessage.length > prBodyMaxCharacters then
      fullMessageTier2 autoPublish preState branch changedPackagesInfo
    else fullMessage
  let fullMessage :=
    if fullMessage.length > prBodyMaxCharacters then
      fullMessageTier3 autoPublish preState branch
    else fullMessage
  fullMessage

/-- Constant `MAX_CHARACTERS_PER_MESSAGE` from `src/run.ts`, the default
`prBodyMaxCharacters`. -/
def MAX_CHARACTERS_PER_MESSAGE : Nat := 60000

/-- A workspace package as seen through `@manypkg/get-packages`: we keep the
`package.json` fields the action reads. -/
structure Package where
  name : String
  version : String
deriving DecidableEq, Repr

/-- The literal `Package archive published` searched for by the publish
regular expression in `src/run.ts`. -/
def publishedMarker : List Char := "Package archive published".toList

/-- Whether a JS regex `.` (without the `s` flag) matches this character:
anything but a line terminator. -/
def regexDotChar (c : Char) : Bool :=
  c != '\n' && c != '\r' && c != Char.ofNat 0x2028 && c != Char.ofNat 0x2029

/-- Whether `".*" + needle` matches some prefix of the character list: the
needle occurs after a (possibly empty) run of `.`-matchable characters. -/
def dotStarThen (needle : List Char) : List Char → Bool
  | [] => needle.isEmpty
  | c :: rest => needle.isPrefixOf (c :: rest) || (regexDotChar c && dotStarThen needle rest)

/-- Backtracking search for the capture of
`(?<packageName>[^\x5b]+)\x5d:.*Package archive published` against `s` (the
characters after a literal `[`): the greedy group tries the longest
prefix first, so `k + 1` counts the candidate capture length, descending. -/
def findCapture (s : List Char) : Nat → Option (List Char)
  | 0 => none
  | k + 1 =>
    let rest := s.drop (k + 1)
    if [']', ':'].isPrefixOf rest && dotStarThen publishedMarker (rest.drop 2) then
      some (s.take (k + 1))
    else findCapture s k

/-- Leftmost match of the publish pattern over a line: at each literal `[`,
attempt the greedy group (whose candidates are the nonempty prefixes of the
maximal `[`-free run) and continue rightwards on failure. -/
def matchPublishedAux : List Char → Option String
  | [] => none
  | c :: rest =>
    if c = '[' then
      match findCapture rest (rest.takeWhile (fun d => d != '[')).length with
      | some capture => some ⟨capture⟩
      | none => matchPublishedAux rest
    else matchPublishedAux rest

/-- Expression `line.match(/\x5b(?<packageName>[^\x5b]+)\x5d:.*Package archive published/)?.groups?.packageName`
from `src/run.ts`: the captured package name of the leftmost match, when the
line matches. -/
def matchPublished (line : String) : Option String :=
  matchPublishedAux line.toList

/-- Tail-building worker for `splitLines`: `acc` holds the current line's
characters in reverse. -/
def splitLinesAux : List Char → List Char → List String
  | [], acc => [⟨acc.reverse⟩]
  | c :: rest, acc =>
    if c = '\n' then ⟨acc.reverse⟩ :: splitLinesAux rest []
    else splitLinesAux rest (c :: acc)

/-- Expression `stdout.split("\n")` from `src/run.ts`, embedded as a
structural split of the character list on the newline character (the JS
separator is the one-character string `"\n"`). -/
def splitLines (s : String) : List String :=
  splitLinesAux s.toList []

/-- The scraping loop of `runPublish` in `src/run.ts`: for each stdout line,
match the publish pattern and look the captured name up among the workspace
packages; matched packages accumulate in line order. -/
def scrapePublishedPackages (stdout : String) (packages : List Package) :
    List Package :=
  (splitLines stdout).filterMap (fun line =>
    match matchPublished line with
    | some packageName => packages.find? (fun pkg => pkg.name == packageName)
    | none => none)

/-- An element of the `publishedPackages` output of `runPublish`. -/
structure PublishedPackage where
  name : String
  version : String
deriving DecidableEq, Repr

/-- The `PublishResult` type of `src/run.ts`. -/
inductive PublishResult where
  | published (publishedPackages : List PublishedPackage)
  | notPublished
deriving DecidableEq, Repr

/-- The tail of `runPublish` in `src/run.ts`: scrape stdout, then return
`published: true` with the matched packages' names and versions when the
scrape list is nonempty, and `published: false` otherwise. -/
def runPublishScrapeResult (stdout : String) (packages : List Package) :
    PublishResult :=
  let publishedPackages := scrapePublishedPackages stdout packages
  if publishedPackages.length != 0 then
    .published (publishedPackages.map (fun pkg => ⟨pkg.name, pkg.version⟩))
  else
    .notPublished

/-- Function `runPublish` from the publish command onwards, as a function of the
command's observed exit code, stderr and stdout: a nonzero exit throws
`new Error(stderr)`, otherwise the stdout is scraped. -/
def runPublishOutcome (exitCode : Int) (stderr stdout : String)
    (packages : List Package) : Except String PublishResult :=
  if exitCode != 0 then .error stderr
  else .ok (runPublishScrapeResult stdout packages)

/-- The `yarn workspaces foreach ... npm publish` argument list of
`runPublish`, depending on whether the detected yarn version is `>= 4.0.0`. -/
def publishCommandArgs (yarnGte4 : Bool) : List String :=
  if yarnGte4 then
    ["workspaces", "foreach", "--verbose", "--worktree", "--interlaced",
     "--topological-dev", "--no-private", "npm", "publish", "--tolerate-republish"]
  else
    ["workspaces", "foreach", "--verbose", "--interlaced",
     "--topological-dev", "--no-private", "npm", "publish", "--tolerate-republish"]

/-- The front half of `runPublish` in `src/run.ts`: after `getPackages`
reports the monorepo tool, either throw `Only Yarn is supported` (before any
shell command) or proceed to issue the auth-token configuration, the version
probe, and the recursive publish command, in that order. Each command is a
`(program, args)` pair; `yarnGte4` stands for `semver.gte(yarnVersion, "4.0.0")`. -/
def runPublishCommands (toolType : String) (npmToken : String)
    (yarnGte4 : Bool) : Except String (List (String × List String)) :=
  if toolType != "yarn" && toolType != "root" then
    .error "Only Yarn is supported"
  else
    .ok [("yarn", ["config", "set", "npmAuthToken", npmToken]),
         ("yarn", ["--version"]),
         ("yarn", publishCommandArgs yarnGte4)]

/-- Result of `fs.readFile` as observed by `createRelease`: success, an
`ENOENT` error, or some other error. -/
inductive FsReadResult where
  | ok (content : String)
  | enoent
  | otherError (message : String)
deriving DecidableEq, Repr

/-- The payload of the `octokit.rest.repos.createRelease` call issued by
`createRelease` in `src/run.ts` (repository coordinates omitted). -/
structure ReleaseRequest where
  name : String
  tag_name : String
  body : String
  prerelease : Bool
deriving DecidableEq, Repr

/-- Function `createRelease` from `src/run.ts`, as a function of the observed
`CHANGELOG.md` read and of `getChangelogEntry` (from the absent
`src/utils.ts`, passed as the parameter `getEntry`): an `ENOENT` read is
swallowed and no release is issued; any other read error propagates; a
changelog without an entry for the package's version throws; otherwise one
release request is issued with the tag name as both `name` and `tag_name`,
the entry's content as body, and `prerelease` set when the version contains
a `-` (JS `version.includes("-")` with a one-character needle, embedded as
character membership). -/
def createRelease (getEntry : String → String → Option ChangelogEntry)
    (readResult : FsReadResult) (pkg : Package) (tagName : String) :
    Except String (Option ReleaseRequest) :=
  match readResult with
  | .enoent => .ok none
  | .otherError message => .error message
  | .ok changelog =>
    match getEntry changelog pkg.version with
    | none =>
      .error ("Could not find changelog entry for " ++ pkg.name ++ "@" ++ pkg.version)
    | some changelogEntry =>
      .ok (some { name := tagName, tag_name := tagName,
                  body := changelogEntry.content,
                  prerelease := pkg.version.toList.contains '-' })

/-- The release tag used by `runPublish` for each published package. -/
def publishTagName (pkg : Package) : String :=
  pkg.name ++ "@" ++ pkg.version

/-- The `createGithubReleases` branch of `runPublish` in `src/run.ts`: one
`createRelease` call per published package, tagged `<name>@<version>`, and
none when the flag is off. `reads pkg` is the observed read of that
package's `CHANGELOG.md`. -/
def publishReleaseCalls (getEntry : String → String → Option ChangelogEntry)
    (reads : Package → FsReadResult) (createGithubReleases : Bool)
    (publishedPackages : List Package) : List (Except String (Option ReleaseRequest)) :=
  if createGithubReleases then
    publishedPackages.map (fun pkg =>
      createRelease getEntry (reads pkg) pkg (publishTagName pkg))
  else []

/-- A git operation issued through `gitUtils` by `runVersion`. -/
inductive GitOp where
  | commitAll (message : String)
  | push (branch : String) (force : Bool)
deriving DecidableEq, Repr

/-- The ` (<tag>)` suffix appended to the PR title and the commit message
when a pre state is active. -/
def preSuffix (preState : Option PreState) : String :=
  match preState with
  | some preState => " (" ++ preState.tag ++ ")"
  | none => ""

/-- The commit/push tail of `runVersion` in `src/run.ts`: commit all changes
exactly when `gitUtils.checkIfClean()` reported a dirty tree, then force-push
the version branch unconditionally. -/
def versionCommitPushOps (commitMessage : String) (preState : Option PreState)
    (clean : Bool) (versionBranch : String) : List GitOp :=
  (if !clean then [GitOp.commitAll (commitMessage ++ preSuffix preState)] else [])
    ++ [GitOp.push versionBranch true]

/-- The version branch name `changeset-release/<branch>` of `runVersion`. -/
def versionBranchOf (branch : String) : String :=
  "changeset-release/" ++ branch

/-- The open-PR search query issued by `runVersion`. -/
def prSearchQuery (repo branch : String) : String :=
  "repo:" ++ repo ++ "+state:open+head:" ++ versionBranchOf branch ++
  "+base:" ++ branch ++ "+is:pull-request"

/-- A pull-request API call issued by the tail of `runVersion`. -/
inductive PrApiCall where
  | create (base head title body : String)
  | update (pull_number : Nat) (title body : String)
deriving DecidableEq, Repr

/-- The PR create-or-update tail of `runVersion` in `src/run.ts`, as a
function of the search result's item numbers and of the number the create
call would return: no items means a create on `(base, head)` with the
computed title and body, otherwise an update of the first item; the second
component is the returned `pullRequestNumber`. -/
def runVersionPrStep (branch : String) (finalPrTitle prBody : String)
    (searchItems : List Nat) (createdPrNumber : Nat) : PrApiCall × Nat :=
  match searchItems with
  | [] =>
    (.create branch (versionBranchOf branch) finalPrTitle prBody, createdPrNumber)
  | pullRequest :: _ =>
    (.update pullRequest finalPrTitle prBody, pullRequest)

/-! Theorems. -/

/-- C10: `readChangesetState` returns a defined `preState` iff a pre state
exists on disk with mode `pre`; in that case the returned changesets are
exactly the ones read from disk whose id is not among `preState.changesets`
(here: the filter of the on-disk list); when no pre state exists or its mode
is not `pre`, `preState` is `undefined` and every changeset read from disk
is returned unfiltered. -/
theorem readChangesetState_spec (preStateOnDisk : Option PreState)
    (changesetsOnDisk : List Changeset) :
    ((readChangesetState preStateOnDisk changesetsOnDisk).1.isSome ↔
      ∃ p, preStateOnDisk = some p ∧ p.mode = "pre") ∧
    (∀ p, preStateOnDisk = some p → p.mode = "pre" →
      readChangesetState preStateOnDisk changesetsOnDisk =
        (some p, changesetsOnDisk.filter (fun x => !(p.changesets.contains x.id)))) ∧
    ((∀ p, preStateOnDisk = some p → p.mode ≠ "pre") →
      readChangesetState preStateOnDisk changesetsOnDisk = (none, changesetsOnDisk)) := by
  rcases preStateOnDisk with _ | p
  · simp [readChangesetState]
  · by_cases h : p.mode = "pre"
    · simp [readChangesetState, h]
    · simp [readChangesetState, h]

/-- Witness for C10 at a concrete pre state and changeset list. -/
theorem readChangesetState_spec_witness :
    readChangesetState (some ⟨"pre", "next", ["a"]⟩)
        [⟨"a", ["x"]⟩, ⟨"b", ["y"]⟩] =
      (some ⟨"pre", "next", ["a"]⟩, [⟨"b", ["y"]⟩]) :=
  ((readChangesetState_spec (some ⟨"pre", "next", ["a"]⟩)
      [⟨"a", ["x"]⟩, ⟨"b", ["y"]⟩]).2.1 ⟨"pre", "next", ["a"]⟩ rfl rfl).trans
    (by decide)

/-- C3: with a GitHub token present, the entry point takes the versioning
path (`runVersion`) iff the changesets read from disk include at least one
non-empty changeset; when changesets exist but all are empty, the run stops
on the empty-changesets branch, creating or updating no PR. -/
theorem mainDecision_version_iff (githubToken : String) (npmToken : Option String)
    (changesets : List Changeset) (autoPublish : Bool) :
    (mainDecision (some githubToken) npmToken changesets autoPublish =
        MainAction.version ↔
      ∃ changeset ∈ changesets, changeset.releases ≠ []) ∧
    (changesets ≠ [] → (∀ changeset ∈ changesets, changeset.releases = []) →
      mainDecision (some githubToken) npmToken changesets autoPublish =
        MainAction.skipEmpty) := by
  have hmain : mainDecision (some githubToken) npmToken changesets autoPublish =
      (if changesets.length != 0 then
        (if changesets.any (fun changeset => changeset.releases.length > 0) then
          MainAction.version
        else MainAction.skipEmpty)
      else if autoPublish then
        (match npmToken with
         | none => MainAction.fail "Please add the NPM_TOKEN to the changesets action"
         | some _ => MainAction.publish)
      else MainAction.noop) := rfl
  have hany : changesets.any (fun changeset => changeset.releases.length > 0) = true ↔
      ∃ changeset ∈ changesets, changeset.releases ≠ [] := by
    simp [List.any_eq_true, List.length_pos]
  by_cases hnil : changesets = []
  · subst hnil
    constructor
    · rw [hmain]
      constructor
      · intro h
        exfalso
        rcases npmToken with _ | t <;> cases autoPublish <;> simp_all
      · rintro ⟨c, hc, -⟩
        simp at hc
    · intro h
      exact absurd rfl h
  · have hlen : (changesets.length != 0) = true := by
      simpa using fun h => hnil (List.length_eq_zero.mp h)
    constructor
    · rw [hmain, if_pos hlen]
      by_cases h2 : changesets.any (fun changeset => changeset.releases.length > 0) = true
      · rw [if_pos h2]
        simpa using hany.mp h2
      · rw [if_neg h2]
        constructor
        · intro h
          exact absurd h (by simp)
        · intro hex
          exact absurd (hany.mpr hex) h2
    · intro _ hall
      have h2 : changesets.any (fun changeset => changeset.releases.length > 0) = false := by
        rcases hb : changesets.any (fun changeset => changeset.releases.length > 0) with _ | _
        · rfl
        · obtain ⟨c, hc, hne⟩ := hany.mp hb
          exact absurd (hall c hc) hne
      rw [hmain, if_pos hlen, h2]
      rfl

/-- Witness for C3: one non-empty changeset takes the versioning path; one
empty changeset takes the skip branch. -/
theorem mainDecision_version_iff_witness :
    mainDecision (some "t") none [⟨"a", ["pkg"]⟩] true = MainAction.version ∧
    mainDecision (some "t") none [⟨"a", []⟩] true = MainAction.skipEmpty :=
  ⟨(mainDecision_version_iff "t" none [⟨"a", ["pkg"]⟩] true).1.mpr
      ⟨⟨"a", ["pkg"]⟩, by decide, by decide⟩,
   (mainDecision_version_iff "t" none [⟨"a", []⟩] true).2 (by decide)
      (by decide)⟩

/-- C5: with a GitHub token present, `runPublish` is invoked iff there are no
pending changesets, `autoPublish` is on and `NPM_TOKEN` is set; with
`autoPublish` on but `NPM_TOKEN` missing the run fails with the NPM_TOKEN
message and publishes nothing; and no single invocation takes both the
versioning path and the publish path. -/
theorem mainDecision_publish_iff (githubToken : String) (npmToken : Option String)
    (changesets : List Changeset) (autoPublish : Bool) :
    (mainDecision (some githubToken) npmToken changesets autoPublish =
        MainAction.publish ↔
      changesets = [] ∧ autoPublish = true ∧ npmToken.isSome = true) ∧
    (changesets = [] → autoPublish = true → npmToken = none →
      mainDecision (some githubToken) npmToken changesets autoPublish =
        MainAction.fail "Please add the NPM_TOKEN to the changesets action") ∧
    ¬(mainDecision (some githubToken) npmToken changesets autoPublish =
        MainAction.version ∧
      mainDecision (some githubToken) npmToken changesets autoPublish =
        MainAction.publish) := by
  refine ⟨?_, ?_, ?_⟩
  · by_cases hnil : changesets = []
    · subst hnil
      rcases npmToken with _ | t <;> cases autoPublish <;> simp [mainDecision]
    · have hlen : (changesets.length != 0) = true := by
        simpa using fun h => hnil (List.length_eq_zero.mp h)
      have : mainDecision (some githubToken) npmToken changesets autoPublish =
          (if changesets.any (fun changeset => changeset.releases.length > 0) then
            MainAction.version
          else MainAction.skipEmpty) := by
        simp [mainDecision, hlen]
      rw [this]
      rcases hb : changesets.any (fun changeset => changeset.releases.length > 0) with _ | _ <;>
        simp [hnil]
  · rintro rfl rfl rfl
    rfl
  · rintro ⟨hv, hp⟩
    rw [hv] at hp
    exact MainAction.noConfusion hp

/-- Witness for C5: empty changesets with `autoPublish` and a token publish;
a missing token fails. -/
theorem mainDecision_publish_iff_witness :
    mainDecision (some "t") (some "npm") ([] : List Changeset) true =
      MainAction.publish ∧
    mainDecision (some "t") none ([] : List Changeset) true =
      MainAction.fail "Please add the NPM_TOKEN to the changesets action" :=
  ⟨(mainDecision_publish_iff "t" (some "npm") [] true).1.mpr
      ⟨rfl, rfl, rfl⟩,
   (mainDecision_publish_iff "t" none [] true).2.1 rfl rfl rfl⟩

/-- C4: in the tail of `runVersion`, an empty PR search result leads to a
create call with head `changeset-release/<branch>`, base `<branch>`, and the
computed title and body, returning the created PR's number; a nonempty
search result leads to an update of the first item (no create), returning
that item's number. -/
theorem runVersionPrStep_spec (branch finalPrTitle prBody : String)
    (searchItems : List Nat) (createdPrNumber : Nat) :
    (searchItems = [] →
      runVersionPrStep branch finalPrTitle prBody searchItems createdPrNumber =
        (PrApiCall.create branch ("changeset-release/" ++ branch) finalPrTitle prBody,
         createdPrNumber)) ∧
    (∀ firstPr rest, searchItems = firstPr :: rest →
      runVersionPrStep branch finalPrTitle prBody searchItems createdPrNumber =
        (PrApiCall.update firstPr finalPrTitle prBody, firstPr)) := by
  constructor
  · rintro rfl
    rfl
  · rintro firstPr rest rfl
    rfl

/-- Witness for C4 at a concrete branch, in both the empty and the nonempty
search case. -/
theorem runVersionPrStep_spec_witness :
    runVersionPrStep "main" "Version Packages" "body" [] 7 =
      (PrApiCall.create "main" ("changeset-release/" ++ "main")
        "Version Packages" "body", 7) ∧
    runVersionPrStep "main" "Version Packages" "body" [41, 42] 7 =
      (PrApiCall.update 41 "Version Packages" "body", 41) :=
  ⟨(runVersionPrStep_spec "main" "Version Packages" "body" [] 7).1 rfl,
   (runVersionPrStep_spec "main" "Version Packages" "body" [41, 42] 7).2 41 [42] rfl⟩

/-- C7: in `runVersion`, a commit is issued iff the working tree was not
clean, its message being `commitMessage` suffixed with ` (<tag>)` when a pre
state is active, and the version branch is force-pushed last in every case. -/
theorem runVersion_commit_push_spec (commitMessage : String)
    (preState : Option PreState) (clean : Bool) (versionBranch : String) :
    ((∃ message, GitOp.commitAll message ∈
        versionCommitPushOps commitMessage preState clean versionBranch) ↔
      clean = false) ∧
    (∀ message, GitOp.commitAll message ∈
        versionCommitPushOps commitMessage preState clean versionBranch →
      message = commitMessage ++ preSuffix preState) ∧
    (versionCommitPushOps commitMessage preState clean versionBranch).getLast? =
      some (GitOp.push versionBranch true) := by
  cases clean <;> simp [versionCommitPushOps]

/-- Witness for C7: a dirty tree in pre mode commits with the tagged message
and then force-pushes. -/
theorem runVersion_commit_push_spec_witness :
    (∃ message, GitOp.commitAll message ∈
      versionCommitPushOps "Version Packages" (some ⟨"pre", "next", []⟩) false
        "changeset-release/main") ∧
    (versionCommitPushOps "Version Packages" (some ⟨"pre", "next", []⟩) false
        "changeset-release/main").getLast? =
      some (GitOp.push "changeset-release/main" true) :=
  ⟨(runVersion_commit_push_spec "Version Packages" (some ⟨"pre", "next", []⟩)
      false "changeset-release/main").1.mpr rfl,
   (runVersion_commit_push_spec "Version Packages" (some ⟨"pre", "next", []⟩)
      false "changeset-release/main").2.2⟩

/-- C9: `runPublish` throws `Only Yarn is supported` for a monorepo tool
other than `yarn` or `root`, and then issues no shell command (no auth-token
configuration, no version probe, no publish). -/
theorem runPublish_non_yarn (toolType npmToken : String) (yarnGte4 : Bool)
    (h1 : toolType ≠ "yarn") (h2 : toolType ≠ "root") :
    runPublishCommands toolType npmToken yarnGte4 =
      Except.error "Only Yarn is supported" ∧
    ∀ commands, runPublishCommands toolType npmToken yarnGte4 ≠ Except.ok commands := by
  have hcond : (toolType != "yarn" && toolType != "root") = true := by
    simp [h1, h2]
  constructor
  · simp [runPublishCommands, hcond]
  · intro commands
    simp [runPublishCommands, hcond]

/-- Witness for C9: a pnpm workspace is rejected. -/
theorem runPublish_non_yarn_witness :
    runPublishCommands "pnpm" "token" true = Except.error "Only Yarn is supported" :=
  (runPublish_non_yarn "pnpm" "token" true (by decide) (by decide)).1

/-- C6: with `createGithubReleases` on, one release request is issued per
published package: its `name` and `tag_name` are `<name>@<version>`, its
body is the changelog entry extracted for the package's current version,
and `prerelease` holds iff the version contains a `-`; an `ENOENT` read of
`CHANGELOG.md` skips the release silently, and a changelog without an entry
for the version raises the could-not-find error. -/
theorem createRelease_spec (getEntry : String → String → Option ChangelogEntry)
    (reads : Package → FsReadResult) (publishedPackages : List Package)
    (pkg : Package) :
    (∀ changelog entry, getEntry changelog pkg.version = some entry →
      createRelease getEntry (FsReadResult.ok changelog) pkg (publishTagName pkg) =
        Except.ok (some
          { name := pkg.name ++ "@" ++ pkg.version,
            tag_name := pkg.name ++ "@" ++ pkg.version,
            body := entry.content,
            prerelease := pkg.version.toList.contains '-' })) ∧
    (createRelease getEntry FsReadResult.enoent pkg (publishTagName pkg) =
      Except.ok none) ∧
    (∀ changelog, getEntry changelog pkg.version = none →
      createRelease getEntry (FsReadResult.ok changelog) pkg (publishTagName pkg) =
        Except.error
          ("Could not find changelog entry for " ++ pkg.name ++ "@" ++ pkg.version)) ∧
    (publishReleaseCalls getEntry reads true publishedPackages).length =
      publishedPackages.length := by
  refine ⟨?_, rfl, ?_, ?_⟩
  · intro changelog entry h
    simp [createRelease, publishTagName, h]
  · intro changelog h
    simp [createRelease, h]
  · simp [publishReleaseCalls]

/-- Witness for C6: a prerelease version with a present entry yields one
release request; the entry body and the prerelease flag are as computed. -/
theorem createRelease_spec_witness :
    createRelease (fun _ _ => some ⟨"entry text"⟩) (FsReadResult.ok "log")
        ⟨"pkg", "1.0.0-rc.1"⟩ (publishTagName ⟨"pkg", "1.0.0-rc.1"⟩) =
      Except.ok (some ⟨"pkg@1.0.0-rc.1", "pkg@1.0.0-rc.1", "entry text", true⟩) :=
  ((createRelease_spec (fun _ _ => some ⟨"entry text"⟩) (fun _ => FsReadResult.ok "log")
      [] ⟨"pkg", "1.0.0-rc.1"⟩).1 "log" ⟨"entry text"⟩ rfl).trans (by rfl)

/-- Helper: the scrape list is nonempty iff some stdout line matches the
publish pattern with a captured name borne by some workspace package. -/
theorem scrapePublishedPackages_ne_nil_iff (stdout : String) (packages : List Package) :
    scrapePublishedPackages stdout packages ≠ [] ↔
      ∃ line ∈ splitLines stdout, ∃ packageName,
        matchPublished line = some packageName ∧
        ∃ pkg ∈ packages, pkg.name = packageName := by
  unfold scrapePublishedPackages
  rw [Ne, List.filterMap_eq_nil_iff]
  push_neg
  constructor
  · rintro ⟨line, hline, hne⟩
    refine ⟨line, hline, ?_⟩
    rcases hmp : matchPublished line with _ | packageName
    · simp [hmp] at hne
    · rcases hfind : packages.find? (fun pkg => pkg.name == packageName) with _ | pkg
      · simp [hmp, hfind] at hne
      · exact ⟨packageName, rfl, pkg, List.mem_of_find?_eq_some hfind,
          by simpa using List.find?_some hfind⟩
  · rintro ⟨line, hline, packageName, hmp, pkg, hpkg, hname⟩
    refine ⟨line, hline, ?_⟩
    have hsome : (packages.find? (fun pkg => pkg.name == packageName)).isSome := by
      rw [List.find?_isSome]
      exact ⟨pkg, hpkg, by simp [hname]⟩
    rcases hfind : packages.find? (fun pkg => pkg.name == packageName) with _ | found
    · rw [hfind] at hsome
      simp at hsome
    · simp [hmp, hfind]

/-- C2: when the publish command exits with code 0, `runPublish` returns a
result (no throw); that result is `published: true` with a nonempty package
list exactly when some stdout line matches the publish pattern with a
captured name equal to some workspace package's name; the returned list is
the scraped packages' names and versions in order; and when no line matches
the result is `published: false`. -/
theorem runPublish_scrape_spec (exitCode : Int) (stderr stdout : String)
    (packages : List Package) (h : exitCode = 0) :
    ((∃ publishedPackages, runPublishOutcome exitCode stderr stdout packages =
        Except.ok (PublishResult.published publishedPackages)) ↔
      ∃ line ∈ splitLines stdout, ∃ packageName,
        matchPublished line = some packageName ∧
        ∃ pkg ∈ packages, pkg.name = packageName) ∧
    (∀ publishedPackages, runPublishOutcome exitCode stderr stdout packages =
        Except.ok (PublishResult.published publishedPackages) →
      publishedPackages ≠ [] ∧
      publishedPackages = (scrapePublishedPackages stdout packages).map
        (fun pkg => ⟨pkg.name, pkg.version⟩)) ∧
    ((∀ line ∈ splitLines stdout, matchPublished line = none) →
      runPublishOutcome exitCode stderr stdout packages =
        Except.ok PublishResult.notPublished) := by
  subst h
  have houtcome : runPublishOutcome 0 stderr stdout packages =
      Except.ok (runPublishScrapeResult stdout packages) := rfl
  rcases hscrape : scrapePublishedPackages stdout packages with _ | ⟨pkg, rest⟩
  · have hres : runPublishScrapeResult stdout packages = PublishResult.notPublished := by
      unfold runPublishScrapeResult
      rw [hscrape]
      rfl
    refine ⟨?_, ?_, fun _ => by rw [houtcome, hres]⟩
    · rw [← scrapePublishedPackages_ne_nil_iff stdout packages]
      simp [houtcome, hres, hscrape]
    · intro publishedPackages hpub
      rw [houtcome, hres] at hpub
      exact absurd (Except.ok.inj hpub) (by simp)
  · have hres : runPublishScrapeResult stdout packages =
        PublishResult.published ((pkg :: rest).map (fun p => ⟨p.name, p.version⟩)) := by
      unfold runPublishScrapeResult
      rw [hscrape]
      rfl
    refine ⟨?_, ?_, ?_⟩
    · rw [← scrapePublishedPackages_ne_nil_iff stdout packages]
      simp [houtcome, hres, hscrape]
    · intro publishedPackages hpub
      rw [houtcome, hres] at hpub
      have := (PublishResult.published.inj (Except.ok.inj hpub)).symm
      subst this
      simp [hscrape]
    · intro hnone
      have : scrapePublishedPackages stdout packages = [] := by
        unfold scrapePublishedPackages
        rw [List.filterMap_eq_nil_iff]
        intro line hline
        rw [hnone line hline]
      rw [this] at hscrape
      exact absurd hscrape (by simp)

/-- Witness for C2: a stdout with one publish marker line yields that
package; a stdout without markers yields `published: false`. -/
theorem runPublish_scrape_spec_witness :
    (∃ publishedPackages,
      runPublishOutcome 0 "" "junk\n[pkg-a]: Package archive published"
        [⟨"pkg-a", "1.2.0"⟩] = Except.ok (PublishResult.published publishedPackages)) ∧
    runPublishOutcome 0 "" "no markers here" [⟨"pkg-a", "1.2.0"⟩] =
      Except.ok PublishResult.notPublished :=
  ⟨(runPublish_scrape_spec 0 "" "junk\n[pkg-a]: Package archive published"
      [⟨"pkg-a", "1.2.0"⟩] rfl).1.mpr
    ⟨"[pkg-a]: Package archive published", by decide, "pkg-a", by decide,
      ⟨"pkg-a", "1.2.0"⟩, by decide, rfl⟩,
   (runPublish_scrape_spec 0 "" "no markers here" [⟨"pkg-a", "1.2.0"⟩] rfl).2.2
    (by decide)⟩

/-- C1: `getVersionPrBody` applies a three-tier fallback. When the message
built from the header, the optional pre-mode warning, the `# Releases`
heading and each changed package's header followed by its changelog content
(joined in the order of `changedPackagesInfo`, the list `runVersion` passes
already sorted) is within `prBodyMaxCharacters`, it is returned; otherwise,
when the message with the omission notice and the per-package headers only
fits, that one is returned; otherwise the message with only the header,
warning, heading and the single all-omitted notice is returned. -/
theorem getVersionPrBody_spec (autoPublish : Bool) (preState : Option PreState)
    (changedPackagesInfo : List ChangedPackageInfo)
    (prBodyMaxCharacters : Nat) (branch : String) :
    ((fullMessageTier1 autoPublish preState branch changedPackagesInfo).length ≤
        prBodyMaxCharacters →
      getVersionPrBody autoPublish preState changedPackagesInfo
          prBodyMaxCharacters branch =
        String.intercalate "\n"
          ([messageHeader autoPublish branch,
            messagePrestate preState branch,
            "# Releases"] ++
           changedPackagesInfo.map (fun info => info.header ++ "\n\n" ++ info.content))) ∧
    (prBodyMaxCharacters <
        (fullMessageTier1 autoPublish preState branch changedPackagesInfo).length →
      (fullMessageTier2 autoPublish preState branch changedPackagesInfo).length ≤
        prBodyMaxCharacters →
      getVersionPrBody autoPublish preState changedPackagesInfo
          prBodyMaxCharacters branch =
        String.intercalate "\n"
          ([messageHeader autoPublish branch,
            messagePrestate preState branch,
            "# Releases",
            "\n> The changelog information of each package has been omitted from this message, as the content exceeds the size limit.\n"] ++
           changedPackagesInfo.map (fun info => info.header ++ "\n\n"))) ∧
    (prBodyMaxCharacters <
        (fullMessageTier1 autoPublish preState branch changedPackagesInfo).length →
      prBodyMaxCharacters <
        (fullMessageTier2 autoPublish preState branch changedPackagesInfo).length →
      getVersionPrBody autoPublish preState changedPackagesInfo
          prBodyMaxCharacters branch =
        String.intercalate "\n"
          [messageHeader autoPublish branch,
           messagePrestate preState branch,
           "# Releases",
           "\n> All release information have been omitted from this message, as the content exceeds the size limit."]) := by
  refine ⟨?_, ?_, ?_⟩
  · intro h1
    have h1' : ¬ (fullMessageTier1 autoPublish preState branch
        changedPackagesInfo).length > prBodyMaxCharacters := by omega
    have hg : getVersionPrBody autoPublish preState changedPackagesInfo
        prBodyMaxCharacters branch =
        fullMessageTier1 autoPublish preState branch changedPackagesInfo := by
      simp only [getVersionPrBody, if_neg h1']
    rw [hg]
    rfl
  · intro h1 h2
    have h2' : ¬ (fullMessageTier2 autoPublish preState branch
        changedPackagesInfo).length > prBodyMaxCharacters := by omega
    have hg : getVersionPrBody autoPublish preState changedPackagesInfo
        prBodyMaxCharacters branch =
        fullMessageTier2 autoPublish preState branch changedPackagesInfo := by
      simp only [getVersionPrBody, if_pos h1, if_neg h2']
    rw [hg]
    rfl
  · intro h1 h2
    have hg : getVersionPrBody autoPublish preState changedPackagesInfo
        prBodyMaxCharacters branch =
        fullMessageTier3 autoPublish preState branch := by
      simp only [getVersionPrBody, if_pos h1, if_pos h2]
    rw [hg]
    rfl

set_option maxRecDepth 100000

/-- Witness for C1: with the default budget and no packages, the full
first-tier message is returned. -/
theorem getVersionPrBody_spec_witness :
    getVersionPrBody false none [] MAX_CHARACTERS_PER_MESSAGE "main" =
      String.intercalate "\n"
        ([messageHeader false "main", messagePrestate none "main", "# Releases"] ++
         ([] : List ChangedPackageInfo).map
           (fun info => info.header ++ "\n\n" ++ info.content)) :=
  (getVersionPrBody_spec false none [] MAX_CHARACTERS_PER_MESSAGE "main").1
    (by decide)

/-- C8: the character budget of `getVersionPrBody` is not a hard cap: there
are inputs for which the returned message is strictly longer than
`prBodyMaxCharacters`, the third-tier message being returned without a
length check. -/
theorem getVersionPrBody_not_hard_cap :
    ∃ autoPublish preState changedPackagesInfo prBodyMaxCharacters branch,
      prBodyMaxCharacters <
        (getVersionPrBody autoPublish preState changedPackagesInfo
          prBodyMaxCharacters branch).length ∧
      getVersionPrBody autoPublish preState changedPackagesInfo
          prBodyMaxCharacters branch =
        fullMessageTier3 autoPublish preState branch :=
  ⟨false, none, [], 0, "main", by decide, by decide⟩

end YarnChangesetAction
